import Mathlib

/-!
Shallow embedding of the `gtfs-structure` Rust library (`src/lib.rs`).

Modelling conventions:
* Rust `u16`/`u32` values are `Nat` with explicit `% 2 ^ 16` / `% 2 ^ 32`
  applied exactly where the Rust code truncates (an `as u16` cast) or wraps.
* `chrono::NaiveDate` is an `Int` counting days since 1970-01-01 (which was a
  Thursday); `signed_duration_since(..).num_days()` is plain `Int` subtraction,
  `date + Duration::days(k)` is addition, and `weekday()` is determined by the
  day number modulo 7.
* Rust `HashMap<String, V>` is `String → Option V`; `HashSet<i64>` is a
  `List Int` queried only through membership.
* Fallible Rust functions return `Except`; `parse_time`, which can also
  panic on an out-of-bounds vector index, returns a dedicated outcome type
  with a constructor for that abnormal termination.
* `f64` fields (stop/shape longitude and latitude) and wall-clock timing
  (`read_duration`) are outside the shallow embedding; the float field decoder
  is modelled up to its accept/reject behaviour only.
-/

namespace GtfsStructure

/-- Outcome of a Rust function returning `Result` that may additionally
panic: `ok` and `decodeError` are the two `Result` cases, and
`indexOutOfBounds` models abnormal termination via an out-of-bounds
slice index. -/
inductive RustOutcome (α : Type) where
  | ok (a : α)
  | decodeError
  | indexOutOfBounds
  deriving Repr, DecidableEq

/-- A serde decode failure (`D::Error` / `failure::Error` produced by a field
decoder); the message text is not modelled. -/
structure DecodeError where
  deriving Repr, DecidableEq

/-- Source `ReferenceError { id }` from the source: the id that failed to resolve. -/
structure ReferenceError where
  id : String
  deriving Repr, DecidableEq

/-- Rust `str::parse::<uN>` for an unsigned integer type with modulus
`bound` (`2 ^ 32` for `u32`, `2 ^ 16` for `u16`): an optional leading `+`,
then one or more ASCII digits, rejecting values outside the type's range. -/
def rustParseUnsigned (bound : Nat) (s : String) : Option Nat :=
  let core : List Char :=
    match s.data with
    | '+' :: rest => rest
    | l => l
  if core ≠ [] ∧ core.all Char.isDigit then
    let v := core.foldl (fun acc c => acc * 10 + (c.toNat - '0'.toNat)) 0
    if v < bound then some v else none
  else none

/-- Source `str::parse::<u32>`. -/
def parseU32 (s : String) : Option Nat := rustParseUnsigned (2 ^ 32) s

/-- Split a character list at every occurrence of `c`; the empty list
yields one empty piece, matching Rust's `"".split(c)`. -/
def splitOnChar (c : Char) : List Char → List (List Char)
  | [] => [[]]
  | a :: rest =>
    if a = c then [] :: splitOnChar c rest
    else
      match splitOnChar c rest with
      | [] => [[a]]
      | h :: t => (a :: h) :: t

/-- Rust `s.split(':').collect::<Vec<&str>>()`: the pieces of `s` between
occurrences of `':'` (always at least one piece). -/
def rustSplit (s : String) : List String :=
  (splitOnChar ':' s.data).map String.mk

/-- Source `pub fn parse_time(s: &str) -> Result<u32, Error>` from the source:

    let v: Vec<&str> = s.split(':').collect();
    Ok(&v[0].parse()? * 3600u32 + &v[1].parse()? * 60u32 + &v[2].parse()?)

`split(':')` always yields at least one piece, so `v[0]` never faults, but
`v[1]` / `v[2]` are indexed without a length check and abort the process when
the split produced fewer than three pieces (`indexOutOfBounds`).  Arithmetic
is `u32` arithmetic, i.e. modulo `2 ^ 32`. -/
def parse_time (s : String) : RustOutcome Nat :=
  let v := rustSplit s
  match v.get? 0 with
  | none => .indexOutOfBounds
  | some s0 =>
    match parseU32 s0 with
    | none => .decodeError
    | some h =>
      match v.get? 1 with
      | none => .indexOutOfBounds
      | some s1 =>
        match parseU32 s1 with
        | none => .decodeError
        | some m =>
          match v.get? 2 with
          | none => .indexOutOfBounds
          | some s2 =>
            match parseU32 s2 with
            | none => .decodeError
            | some sec => .ok ((h * 3600 + m * 60 + sec) % 2 ^ 32)

/-- Source `deserialize_time`: deserialize the raw cell as a string and run
`parse_time`, turning its error into a decode error. -/
def deserialize_time (s : String) : RustOutcome Nat := parse_time s

/-- Source `LocationType` with its three variants; `Default` is `StopPoint`. -/
inductive LocationType where
  | StopPoint
  | StopArea
  | StationEntrance
  deriving Repr, DecidableEq

/-- Source `deserialize_location_type` from the source: read the cell as a string,
map `"1"` and `"2"` to the two named variants and anything else to
`StopPoint`; it always returns `Ok`. -/
def deserialize_location_type (s : String) : Except DecodeError LocationType :=
  .ok (match s with
    | "1" => .StopArea
    | "2" => .StationEntrance
    | _ => .StopPoint)

/-- Source `RouteType`: the eight named GTFS modes plus the `Other` fallback
carrying the raw `u16` code. -/
inductive RouteType where
  | Tramway
  | Subway
  | Rail
  | Bus
  | Ferry
  | CableCar
  | Gondola
  | Funicular
  | Other (code : Nat)
  deriving Repr, DecidableEq

/-- Source `impl Deserialize for RouteType`, seen at the level of the numeric code:
`u16::deserialize` yields the code when it fits in a `u16` and fails
otherwise, and the match maps `0..=7` to named variants with everything else
falling back to `Other(i)`. -/
def RouteType.deserialize (i : Nat) : Except DecodeError RouteType :=
  if i < 2 ^ 16 then
    .ok (match i with
      | 0 => .Tramway
      | 1 => .Subway
      | 2 => .Rail
      | 3 => .Bus
      | 4 => .Ferry
      | 5 => .CableCar
      | 6 => .Gondola
      | 7 => .Funicular
      | _ => .Other i)
  else .error ⟨⟩

/-- Rust `f64::from_str` acceptance: optional sign, then `inf`, `infinity`
or `nan` (any case), or a decimal number with at least one mantissa digit and
an optional exponent. -/
def rustFloatSyntax (s : String) : Bool :=
  let l :=
    match s.data with
    | '+' :: rest => rest
    | '-' :: rest => rest
    | l => l
  let lower := l.map Char.toLower
  if lower = "inf".data ∨ lower = "infinity".data ∨ lower = "nan".data then
    true
  else
    let mantissa := l.takeWhile (fun c => c.isDigit ∨ c = '.')
    let exp := l.drop mantissa.length
    (mantissa.any Char.isDigit) &&
    (mantissa.count '.' ≤ 1) &&
    (match exp with
     | [] => true
     | 'e' :: e => expDigits e
     | 'E' :: e => expDigits e
     | _ => false)
where
  /-- optional sign then one or more digits -/
  expDigits (e : List Char) : Bool :=
    let d := match e with
      | '+' :: rest => rest
      | '-' :: rest => rest
      | rest => rest
    d ≠ [] && d.all Char.isDigit

/-- Rust `str::trim`: strip leading and trailing whitespace. -/
def rustTrim (s : String) : String :=
  String.mk
    (((s.data.dropWhile Char.isWhitespace).reverse.dropWhile
      Char.isWhitespace).reverse)

/-- Source `de_with_trimed_float`: trim the cell, then parse it with
`f64::from_str`; only the accept/reject behaviour is modelled (the IEEE value
itself is outside the embedding). -/
def de_with_trimed_float (s : String) : Except DecodeError Unit :=
  if rustFloatSyntax (rustTrim s) then .ok () else .error ⟨⟩

/-- Proleptic-Gregorian leap-year test. -/
def isLeap (y : Nat) : Bool := y % 4 = 0 ∧ (y % 100 ≠ 0 ∨ y % 400 = 0)

/-- Length of month `m` (1-based) of year `y`. -/
def daysInMonth (y m : Nat) : Nat :=
  match m with
  | 2 => if isLeap y then 29 else 28
  | 4 | 6 | 9 | 11 => 30
  | _ => 31

/-- Days from year 0 March-less reckoning: days from 0000-01-01 to
`y`-01-01 in the proleptic Gregorian calendar. -/
def daysBeforeYear (y : Nat) : Nat :=
  365 * y + (y + 3) / 4 - (y + 99) / 100 + (y + 399) / 400

/-- Day of year (0-based) of `y`-`m`-`d`. -/
def dayOfYear (y m d : Nat) : Nat :=
  ((List.range m).filter (fun k => 1 ≤ k)).foldl (fun acc k => acc + daysInMonth y k) 0 + (d - 1)

/-- Day number (days since 1970-01-01) of the civil date `y`-`m`-`d`. -/
def daysFromCivil (y m d : Nat) : Int :=
  ((daysBeforeYear y + dayOfYear y m d : Nat) : Int) - (daysBeforeYear 1970 : Int)

/-- Decimal value of a fixed run of digit characters. -/
def digitsToNat (l : List Char) : Nat :=
  l.foldl (fun acc c => acc * 10 + (c.toNat - '0'.toNat)) 0

/-- Source `deserialize_date`: `NaiveDate::parse_from_str(&s, "%Y%m%d")` — an
8-character all-digit string split 4/2/2 and validated as a real calendar
date; anything else is a decode error. -/
def deserialize_date (s : String) : Except DecodeError Int :=
  match s.data with
  | [y1, y2, y3, y4, m1, m2, d1, d2] =>
    if [y1, y2, y3, y4, m1, m2, d1, d2].all Char.isDigit then
      let y := digitsToNat [y1, y2, y3, y4]
      let m := digitsToNat [m1, m2]
      let d := digitsToNat [d1, d2]
      if 1 ≤ m ∧ m ≤ 12 ∧ 1 ≤ d ∧ d ≤ daysInMonth y m then
        .ok (daysFromCivil y m d)
      else .error ⟨⟩
    else .error ⟨⟩
  | _ => .error ⟨⟩

/-- Source `deserialize_bool`: the cell is `true` exactly when its text is `"1"`. -/
def deserialize_bool (s : String) : Except DecodeError Bool :=
  .ok (s = "1")

/-- Source `chrono::Weekday`. -/
inductive Weekday where
  | Mon | Tue | Wed | Thu | Fri | Sat | Sun
  deriving Repr, DecidableEq

/-- Source `NaiveDate::weekday()` on the day-number representation: 1970-01-01
(day 0) was a Thursday, and the weekday advances with the day number. -/
def weekday (d : Int) : Weekday :=
  match (d % 7).toNat with
  | 0 => .Thu
  | 1 => .Fri
  | 2 => .Sat
  | 3 => .Sun
  | 4 => .Mon
  | 5 => .Tue
  | _ => .Wed

-- Sanity: 2017-01-01 (the fixture start date) was a Sunday.
example : weekday (daysFromCivil 2017 1 1) = Weekday.Sun := by decide

/-- Source `PickupDropOffType` with its four variants; the serde default is
`Regular`. -/
inductive PickupDropOffType where
  | Regular
  | NotAvailable
  | ArrangeByPhone
  | CoordinateWithDriver
  deriving Repr, DecidableEq

/-- Source `Availability`; the derived default is `InformationNotAvailable`. -/
inductive Availability where
  | InformationNotAvailable
  | Available
  | NotAvailable
  deriving Repr, DecidableEq

/-- Source `Calendar`: a service's weekly pattern with its inclusive date range. -/
structure Calendar where
  id : String
  monday : Bool
  tuesday : Bool
  wednesday : Bool
  thursday : Bool
  friday : Bool
  saturday : Bool
  sunday : Bool
  start_date : Int
  end_date : Int
  deriving Repr, DecidableEq

/-- Source `Calendar::valid_weekday`: the pattern flag of the date's weekday. -/
def Calendar.valid_weekday (c : Calendar) (date : Int) : Bool :=
  match weekday date with
  | .Mon => c.monday
  | .Tue => c.tuesday
  | .Wed => c.wednesday
  | .Thu => c.thursday
  | .Fri => c.friday
  | .Sat => c.saturday
  | .Sun => c.sunday

/-- Source `CalendarDate`: one dated exception for a service
(`exception_type` 1 = added, 2 = removed). -/
structure CalendarDate where
  service_id : String
  date : Int
  exception_type : Nat
  deriving Repr, DecidableEq

/-- Source `Stop` (longitude/latitude, being `f64`, are outside the embedding). -/
structure Stop where
  id : String
  code : Option String := none
  name : String := ""
  description : String := ""
  location_type : LocationType := .StopPoint
  parent_station : Option String := none
  timezone : Option String := none
  wheelchair_boarding : Availability := .InformationNotAvailable
  deriving Repr, DecidableEq

/-- Source `StopTimeGtfs`: the staging record decoded from `stop_times.txt`,
before reference resolution. -/
structure StopTimeGtfs where
  trip_id : String
  arrival_time : Nat
  departure_time : Nat
  stop_id : String
  stop_sequence : Nat
  pickup_type : Option PickupDropOffType := none
  drop_off_type : Option PickupDropOffType := none
  deriving Repr, DecidableEq

/-- Source `StopTime`: the resolved stop visit, holding its `Stop` (the Rust `Arc`
sharing is a memory-management detail; the value is what is observable). -/
structure StopTime where
  arrival_time : Nat
  stop : Stop
  departure_time : Nat
  pickup_type : Option PickupDropOffType := none
  drop_off_type : Option PickupDropOffType := none
  stop_sequence : Nat
  deriving Repr, DecidableEq

/-- Source `StopTime::from`. -/
def StopTime.ofGtfs (s : StopTimeGtfs) (stop : Stop) : StopTime :=
  { arrival_time := s.arrival_time
    departure_time := s.departure_time
    stop := stop
    pickup_type := s.pickup_type
    drop_off_type := s.drop_off_type
    stop_sequence := s.stop_sequence }

/-- Source `Route`. -/
structure Route where
  id : String
  short_name : String := ""
  long_name : String := ""
  route_type : RouteType := .Bus
  agency_id : Option String := none
  route_order : Option Nat := none
  deriving Repr, DecidableEq

/-- Source `Trip`: its `stop_times` list starts empty and is filled by the
resolver. -/
structure Trip where
  id : String
  service_id : String
  route_id : String
  stop_times : List StopTime := []
  deriving Repr, DecidableEq

/-- Source `Agency`. -/
structure Agency where
  id : Option String := none
  name : String := ""
  url : String := ""
  timezone : String := ""
  lang : Option String := none
  phone : Option String := none
  fare_url : Option String := none
  email : Option String := none
  deriving Repr, DecidableEq

/-- Source `Shape` (latitude/longitude and `dist_traveled`, being floats, are
outside the embedding). -/
structure Shape where
  id : String
  sequence : Nat
  deriving Repr, DecidableEq

/-- Source `PaymentMethod`. -/
inductive PaymentMethod where
  | Aboard
  | PreBoarding
  deriving Repr, DecidableEq

/-- Source `Transfers` with its `Other` fallback; the default is `Unlimited`. -/
inductive Transfers where
  | Unlimited
  | NoTransfer
  | UniqueTransfer
  | TwoTransfers
  | Other (n : Nat)
  deriving Repr, DecidableEq

/-- Source `FareAttribute`. -/
structure FareAttribute where
  id : String
  price : String := ""
  currency : String := ""
  payment_method : PaymentMethod := .Aboard
  transfers : Transfers := .Unlimited
  agency_id : Option String := none
  transfer_duration : Option Nat := none
  deriving Repr, DecidableEq

/-- Source `HashMap<String, V>` seen through its lookup function. -/
def StrMap (α : Type) : Type := String → Option α

/-- The empty map. -/
def StrMap.empty {α : Type} : StrMap α := fun _ => none

/-- Source `HashMap::insert` (later insertions overwrite earlier ones, as when a
`HashMap` is collected from an iterator with duplicate keys). -/
def StrMap.insert {α : Type} (m : StrMap α) (k : String) (v : α) : StrMap α :=
  fun k' => if k' = k then some v else m k'

/-- Build a map from a row list keyed by `key` (later rows overwrite). -/
def mapOfRows {α : Type} (key : α → String) (rows : List α) : StrMap α :=
  rows.foldl (fun m r => m.insert (key r) r) .empty

/-- Source `entry(k).or_insert_with(Vec::new).push(r)`: append `r` to the group of
key `k`, creating it when absent. -/
def StrMap.pushGroup {α : Type} (m : StrMap (List α)) (k : String) (r : α) :
    StrMap (List α) :=
  m.insert k ((m k).getD [] ++ [r])

/-- The `Gtfs` store.  `read_duration` is wall-clock timing and is carried
as a constant. -/
structure Gtfs where
  read_duration : Int := 0
  calendar : StrMap Calendar := .empty
  calendar_dates : StrMap (List CalendarDate) := .empty
  stops : StrMap Stop := .empty
  routes : StrMap Route := .empty
  trips : StrMap Trip := .empty
  agencies : List Agency := []
  shapes : StrMap (List Shape) := .empty
  fare_attributes : StrMap FareAttribute := .empty

/-- Source `read_calendars`: collect the rows into the id-keyed map. -/
def Gtfs.read_calendars (g : Gtfs) (rows : List Calendar) : Gtfs :=
  { g with calendar := mapOfRows (·.id) rows }

/-- Source `read_calendar_dates`: append each row to its service's group. -/
def Gtfs.read_calendar_dates (g : Gtfs) (rows : List CalendarDate) : Gtfs :=
  { g with calendar_dates :=
      rows.foldl (fun m r => m.pushGroup r.service_id r) g.calendar_dates }

/-- Source `read_stops`. -/
def Gtfs.read_stops (g : Gtfs) (rows : List Stop) : Gtfs :=
  { g with stops := mapOfRows (·.id) rows }

/-- Source `read_routes`. -/
def Gtfs.read_routes (g : Gtfs) (rows : List Route) : Gtfs :=
  { g with routes := mapOfRows (·.id) rows }

/-- Source `read_trips`. -/
def Gtfs.read_trips (g : Gtfs) (rows : List Trip) : Gtfs :=
  { g with trips := mapOfRows (·.id) rows }

/-- Source `read_agencies`. -/
def Gtfs.read_agencies (g : Gtfs) (rows : List Agency) : Gtfs :=
  { g with agencies := rows }

/-- Source `read_shapes`: append each row to its shape-id group. -/
def Gtfs.read_shapes (g : Gtfs) (rows : List Shape) : Gtfs :=
  { g with shapes := rows.foldl (fun m r => m.pushGroup r.id r) g.shapes }

/-- Source `read_fare_attributes`. -/
def Gtfs.read_fare_attributes (g : Gtfs) (rows : List FareAttribute) : Gtfs :=
  { g with fare_attributes := mapOfRows (·.id) rows }

/-- The insertion step of a stable sort by `stop_sequence`: the new element
goes in front of the first element whose sequence number is `≥` its own, so
an element inserted from further left in the original list stays left of
equal-sequence elements. -/
def insertBySeq (a : StopTime) : List StopTime → List StopTime
  | [] => [a]
  | b :: l =>
    if a.stop_sequence ≤ b.stop_sequence then a :: b :: l
    else b :: insertBySeq a l

/-- Source `Vec::sort_by(|a, b| a.stop_sequence.cmp(&b.stop_sequence))`: a stable
sort by sequence number, modelled as stable insertion sort. -/
def sortBySeq : List StopTime → List StopTime
  | [] => []
  | a :: l => insertBySeq a (sortBySeq l)

/-- The first, resolving loop of `read_stop_times`: for each staging record
in file order, look the trip up by id (failing with a `ReferenceError`
carrying the trip id), then the stop (failing with one carrying the stop
id), and append the resolved visit to the trip's list. -/
def resolveStopTimes (trips : StrMap Trip) (stops : StrMap Stop) :
    List StopTimeGtfs → Except ReferenceError (StrMap Trip)
  | [] => .ok trips
  | s :: rest =>
    match trips s.trip_id with
    | none => .error ⟨s.trip_id⟩
    | some trip =>
      match stops s.stop_id with
      | none => .error ⟨s.stop_id⟩
      | some stop =>
        resolveStopTimes
          (trips.insert s.trip_id
            { trip with stop_times := trip.stop_times ++ [StopTime.ofGtfs s stop] })
          stops rest

/-- Source `read_stop_times`: resolve every staging record, then sort every trip's
visit list by sequence number with a stable sort. -/
def Gtfs.read_stop_times (g : Gtfs) (rows : List StopTimeGtfs) :
    Except ReferenceError Gtfs :=
  match resolveStopTimes g.trips g.stops rows with
  | .error e => .error e
  | .ok trips =>
    .ok { g with trips := fun k =>
            (trips k).map (fun t => { t with stop_times := sortBySeq t.stop_times }) }

/-- One step of the exception loop of `trip_days`, acting on the pair
(result vector, removed-days set): an exception at a non-negative offset is
pushed as a `u16` (`offset as u16`, i.e. modulo `2 ^ 16`) when its type is 1,
and inserted in the removal set when its type is 2; other types and negative
offsets are ignored. -/
def exceptionFold (start_date : Int) (acc : List Nat × List Int)
    (extra_day : CalendarDate) : List Nat × List Int :=
  let offset := extra_day.date - start_date
  if 0 ≤ offset then
    if extra_day.exception_type = 1 then
      (acc.1 ++ [offset.toNat % 2 ^ 16], acc.2)
    else if extra_day.exception_type = 2 then
      (acc.1, acc.2 ++ [offset])
    else acc
  else acc

/-- Source `Gtfs::trip_days`: expand a service into day offsets from `start_date`.
First the service's calendar-date exceptions are scanned in encounter order,
filling the result with type-1 offsets and the removal set with type-2
offsets; then, when the service has a calendar, every offset from 0 to
(end date − start date) is pushed whose date lies in the calendar's range,
whose weekday flag is set, and which is not in the removal set.  Pushed
offsets are cast `as u16`. -/
def Gtfs.trip_days (g : Gtfs) (service_id : String) (start_date : Int) :
    List Nat :=
  let p := ((g.calendar_dates service_id).getD []).foldl
      (exceptionFold start_date) ([], [])
  match g.calendar service_id with
  | none => p.1
  | some calendar =>
    let total_days := calendar.end_date - start_date
    p.1 ++
      (if 0 ≤ total_days then
        (List.range (total_days.toNat + 1)).filterMap (fun (k : Nat) =>
          let days_offset : Int := (k : Int)
          let current_date := start_date + days_offset
          if calendar.start_date ≤ current_date ∧ current_date ≤ calendar.end_date
              ∧ calendar.valid_weekday current_date = true
              ∧ days_offset ∉ p.2
          then some (days_offset.toNat % 2 ^ 16) else none)
      else [])

/-- Source `get_stop` (the other accessors share this shape). -/
def Gtfs.get_stop (g : Gtfs) (id : String) : Except ReferenceError Stop :=
  match g.stops id with
  | some stop => .ok stop
  | none => .error ⟨id⟩

/-- Source `get_trip`. -/
def Gtfs.get_trip (g : Gtfs) (id : String) : Except ReferenceError Trip :=
  match g.trips id with
  | some trip => .ok trip
  | none => .error ⟨id⟩

/-- The decoded contents of a bundle directory, one field per recognized
file name; `none` models a file that is absent (so that `File::open` fails
for the mandatory ones and `.ok()` turns the failure into skipping for the
optional ones).  Row-level CSV decoding happens in the external `csv`/`serde`
layer and a file is modelled by its decoded row sequence. -/
structure GtfsDir where
  trips_file : Option (List Trip) := none
  calendar_file : Option (List Calendar) := none
  stops_file : Option (List Stop) := none
  calendar_dates_file : Option (List CalendarDate) := none
  routes_file : Option (List Route) := none
  stop_times_file : Option (List StopTimeGtfs) := none
  agency_file : Option (List Agency) := none
  shapes_file : Option (List Shape) := none
  fare_attributes_file : Option (List FareAttribute) := none

/-- A fatal load failure: an I/O error opening a mandatory file, or a
reference error from stop-visit resolution. -/
inductive LoadError where
  | io
  | ref (e : ReferenceError)
  deriving Repr, DecidableEq

/-- The store state of `Gtfs::new` just before the stop-times pass: trips,
calendars, calendar dates, stops and routes read — in the source's call
order — into an initially default store. -/
def stagedStore (tr : List Trip) (cal : List Calendar)
    (cd : List CalendarDate) (st : List Stop) (r : List Route) : Gtfs :=
  (((((({} : Gtfs).read_trips tr).read_calendars cal).read_calendar_dates
    cd).read_stops st).read_routes r)

/-- Source `Gtfs::new`: open the seven mandatory files (any failure is fatal),
open the two optional files tolerantly (`.ok()`), then run the read
pipeline in source order — trips, calendars, calendar dates, stops, routes,
stop times (which can fail with a reference error), agencies, and the
optional shapes and fare attributes. -/
def Gtfs.new (dir : GtfsDir) : Except LoadError Gtfs :=
  match dir.trips_file, dir.calendar_file, dir.stops_file,
      dir.calendar_dates_file, dir.routes_file, dir.stop_times_file,
      dir.agency_file with
  | some tr, some cal, some st, some cd, some r, some sx, some a =>
    (match (stagedStore tr cal cd st r).read_stop_times sx with
      | .error e => .error (.ref e)
      | .ok g =>
        let g := g.read_agencies a
        let g := match dir.shapes_file with
          | some rows => g.read_shapes rows
          | none => g
        let g := match dir.fare_attributes_file with
          | some rows => g.read_fare_attributes rows
          | none => g
        .ok g)
  | _, _, _, _, _, _, _ => .error .io

/-! ### Lemmas about the stable sort by `stop_sequence` -/

/-- Membership in an insertion step. -/
lemma mem_insertBySeq {x a : StopTime} {l : List StopTime} :
    x ∈ insertBySeq a l ↔ x = a ∨ x ∈ l := by
  induction l with
  | nil => simp [insertBySeq]
  | cons b l ih =>
    by_cases h : a.stop_sequence ≤ b.stop_sequence
    · simp [insertBySeq, h]
    · simp [insertBySeq, h, ih]
      tauto

/-- Inserting preserves sortedness by sequence number. -/
lemma pairwise_insertBySeq {a : StopTime} {l : List StopTime}
    (h : List.Pairwise (fun x y => x.stop_sequence ≤ y.stop_sequence) l) :
    List.Pairwise (fun x y => x.stop_sequence ≤ y.stop_sequence) (insertBySeq a l) := by
  induction l with
  | nil => simp [insertBySeq]
  | cons b l ih =>
    rcases List.pairwise_cons.mp h with ⟨hb, hl⟩
    by_cases hab : a.stop_sequence ≤ b.stop_sequence
    · simp only [insertBySeq, if_pos hab]
      refine List.pairwise_cons.mpr ⟨?_, h⟩
      intro x hx
      rcases List.mem_cons.mp hx with rfl | hx
      · exact hab
      · exact le_trans hab (hb x hx)
    · simp only [insertBySeq, if_neg hab]
      refine List.pairwise_cons.mpr ⟨?_, ih hl⟩
      intro x hx
      rcases mem_insertBySeq.mp hx with rfl | hx
      · exact le_of_not_le hab
      · exact hb x hx

/-- Source `sortBySeq` sorts by non-decreasing sequence number. -/
lemma sortBySeq_sorted (l : List StopTime) :
    List.Pairwise (fun x y => x.stop_sequence ≤ y.stop_sequence) (sortBySeq l) := by
  induction l with
  | nil => simp [sortBySeq]
  | cons a l ih => exact pairwise_insertBySeq ih

/-- Inserting an element whose sequence number is `k` puts it before every
element of sequence number `k` already present (the inserted element came
from further left in the original list). -/
lemma filter_insertBySeq_eq {a : StopTime} {k : Nat} (l : List StopTime)
    (h : a.stop_sequence = k) :
    (insertBySeq a l).filter (fun st => st.stop_sequence == k) =
      a :: l.filter (fun st => st.stop_sequence == k) := by
  induction l with
  | nil => simp [insertBySeq, List.filter, h]
  | cons b l ih =>
    by_cases hab : a.stop_sequence ≤ b.stop_sequence
    · rw [insertBySeq, if_pos hab]
      simp [List.filter_cons, h]
    · have hbk : ¬ b.stop_sequence = k := by omega
      rw [insertBySeq, if_neg hab]
      simp [List.filter_cons, hbk, ih]

/-- Inserting an element of a different sequence number leaves the filtered
sublist at `k` unchanged. -/
lemma filter_insertBySeq_ne {a : StopTime} {k : Nat} (l : List StopTime)
    (h : ¬ a.stop_sequence = k) :
    (insertBySeq a l).filter (fun st => st.stop_sequence == k) =
      l.filter (fun st => st.stop_sequence == k) := by
  induction l with
  | nil => simp [insertBySeq, List.filter_cons, h]
  | cons b l ih =>
    by_cases hab : a.stop_sequence ≤ b.stop_sequence
    · rw [insertBySeq, if_pos hab]
      simp [List.filter_cons, h]
    · rw [insertBySeq, if_neg hab]
      simp [List.filter_cons, ih]

/-- Stability of `sortBySeq`: the visits carrying any fixed sequence number
appear in the sorted list exactly in their original relative order. -/
lemma sortBySeq_stable (l : List StopTime) (k : Nat) :
    (sortBySeq l).filter (fun st => st.stop_sequence == k) =
      l.filter (fun st => st.stop_sequence == k) := by
  induction l with
  | nil => simp [sortBySeq]
  | cons a l ih =>
    by_cases h : a.stop_sequence = k
    · rw [sortBySeq, filter_insertBySeq_eq _ h, ih, List.filter_cons]
      simp [h]
    · rw [sortBySeq, filter_insertBySeq_ne _ h, ih, List.filter_cons]
      simp [h]

/-! ### Lemmas about stop-visit resolution -/

/-- Updating a key that is already bound does not change which keys are
unbound. -/
lemma insert_none_iff {α : Type} {m : StrMap α} {k : String} {v : α}
    (hk : m k ≠ none) (x : String) :
    (m.insert k v) x = none ↔ m x = none := by
  unfold StrMap.insert
  by_cases h : x = k
  · subst h
    simp [hk]
  · simp [h]

/-- A successful resolution pass implies that every record's trip id and
stop id were bound in the maps it started from. -/
lemma resolve_ok_mem {rows : List StopTimeGtfs} {trips : StrMap Trip}
    {stops : StrMap Stop} {trips' : StrMap Trip}
    (h : resolveStopTimes trips stops rows = .ok trips') :
    ∀ s ∈ rows, trips s.trip_id ≠ none ∧ stops s.stop_id ≠ none := by
  induction rows generalizing trips with
  | nil => intro s hs; cases hs
  | cons r rows ih =>
    intro s hs
    rw [resolveStopTimes] at h
    cases htr : trips r.trip_id with
    | none => rw [htr] at h; cases h
    | some trip =>
      rw [htr] at h
      cases hst : stops r.stop_id with
      | none => rw [hst] at h; cases h
      | some stop =>
        rw [hst] at h
        rcases List.mem_cons.mp hs with rfl | hs
        · exact ⟨by simp [htr], by simp [hst]⟩
        · have hmem := ih h s hs
          exact ⟨fun hn =>
            hmem.1 ((insert_none_iff (by simp [htr]) s.trip_id).mpr hn), hmem.2⟩

/-- When every record's ids are bound, the resolution pass succeeds. -/
lemma resolve_ok_of_mem {rows : List StopTimeGtfs} {trips : StrMap Trip}
    {stops : StrMap Stop}
    (h : ∀ s ∈ rows, trips s.trip_id ≠ none ∧ stops s.stop_id ≠ none) :
    ∃ trips', resolveStopTimes trips stops rows = .ok trips' := by
  induction rows generalizing trips with
  | nil => exact ⟨trips, rfl⟩
  | cons r rows ih =>
    obtain ⟨h1, h2⟩ := h r (List.mem_cons_self r rows)
    cases htr : trips r.trip_id with
    | none => exact absurd htr h1
    | some trip =>
      cases hst : stops r.stop_id with
      | none => exact absurd hst h2
      | some stop =>
        have hnext : ∀ s ∈ rows,
            (trips.insert r.trip_id
              { trip with stop_times :=
                  trip.stop_times ++ [StopTime.ofGtfs r stop] }) s.trip_id ≠ none ∧
              stops s.stop_id ≠ none := by
          intro s hs
          obtain ⟨hs1, hs2⟩ := h s (List.mem_cons_of_mem r hs)
          refine ⟨fun hn => hs1 ?_, hs2⟩
          exact (insert_none_iff (by simp [htr]) s.trip_id).mp hn
        obtain ⟨trips', htrips'⟩ := ih hnext
        refine ⟨trips', ?_⟩
        rw [resolveStopTimes, htr, hst]
        exact htrips'

/-- A failed resolution pass is explained by a record whose trip id is
unbound (the error carries the trip id) or, the trip id being bound, whose
stop id is unbound (the error carries the stop id). -/
lemma resolve_err_mem {rows : List StopTimeGtfs} {trips : StrMap Trip}
    {stops : StrMap Stop} {e : ReferenceError}
    (h : resolveStopTimes trips stops rows = .error e) :
    ∃ s ∈ rows,
      (trips s.trip_id = none ∧ e.id = s.trip_id) ∨
        (trips s.trip_id ≠ none ∧ stops s.stop_id = none ∧ e.id = s.stop_id) := by
  induction rows generalizing trips with
  | nil => rw [resolveStopTimes] at h; cases h
  | cons r rows ih =>
    rw [resolveStopTimes] at h
    cases htr : trips r.trip_id with
    | none =>
      rw [htr] at h
      refine ⟨r, List.mem_cons_self r rows, Or.inl ⟨htr, ?_⟩⟩
      cases h
      rfl
    | some trip =>
      rw [htr] at h
      cases hst : stops r.stop_id with
      | none =>
        rw [hst] at h
        refine ⟨r, List.mem_cons_self r rows, Or.inr ⟨by simp [htr], hst, ?_⟩⟩
        cases h
        rfl
      | some stop =>
        rw [hst] at h
        obtain ⟨s, hs, hprop⟩ := ih h
        refine ⟨s, List.mem_cons_of_mem r hs, ?_⟩
        rcases hprop with ⟨hn, he⟩ | ⟨hn, hst', he⟩
        · exact Or.inl ⟨(insert_none_iff (by simp [htr]) s.trip_id).mp hn, he⟩
        · refine Or.inr ⟨fun hnone => hn ?_, hst', he⟩
          exact (insert_none_iff (by simp [htr]) s.trip_id).mpr hnone

/-- Claim **C3.** During stop-visit resolution (`read_stop_times`), a staging
record whose trip id is absent from the trips map or whose stop id is absent
from the stops map makes the load fail with a `ReferenceError` carrying the
unresolved identifier — the trip id being checked before the stop id — and
when both ids resolve for every record the load of the file succeeds. -/
theorem read_stop_times_references (g : Gtfs) (rows : List StopTimeGtfs) :
    ((∀ s ∈ rows, g.trips s.trip_id ≠ none ∧ g.stops s.stop_id ≠ none) →
      ∃ g', g.read_stop_times rows = .ok g') ∧
    (∀ s ∈ rows, (g.trips s.trip_id = none ∨ g.stops s.stop_id = none) →
      ∃ e s', g.read_stop_times rows = .error e ∧ s' ∈ rows ∧
        ((g.trips s'.trip_id = none ∧ e.id = s'.trip_id) ∨
          (g.trips s'.trip_id ≠ none ∧ g.stops s'.stop_id = none ∧
            e.id = s'.stop_id))) := by
  constructor
  · intro h
    obtain ⟨trips', ht⟩ := resolve_ok_of_mem h
    exact ⟨_, by rw [Gtfs.read_stop_times, ht]⟩
  · intro s hs hbad
    cases hres : resolveStopTimes g.trips g.stops rows with
    | ok trips' =>
      exfalso
      have hmem := resolve_ok_mem hres s hs
      rcases hbad with hb | hb
      · exact hmem.1 hb
      · exact hmem.2 hb
    | error e =>
      obtain ⟨s', hs', hprop⟩ := resolve_err_mem hres
      exact ⟨e, s', by rw [Gtfs.read_stop_times, hres], hs', hprop⟩

/-- A one-trip fixture for instantiating the resolution theorems. -/
def tripFixture : Trip :=
  { id := "trip1", service_id := "service1", route_id := "route1" }

/-- A one-stop fixture. -/
def stopFixture : Stop := { id := "stop1" }

/-- A store holding `tripFixture` and `stopFixture`. -/
def gtfsFixture : Gtfs :=
  { trips := StrMap.empty.insert "trip1" tripFixture
    stops := StrMap.empty.insert "stop1" stopFixture }

/-- Three resolvable staging records, with a sequence-number tie between the
first and third. -/
def rowsFixture : List StopTimeGtfs :=
  [ { trip_id := "trip1", arrival_time := 120, departure_time := 120,
      stop_id := "stop1", stop_sequence := 2 },
    { trip_id := "trip1", arrival_time := 60, departure_time := 60,
      stop_id := "stop1", stop_sequence := 1 },
    { trip_id := "trip1", arrival_time := 180, departure_time := 200,
      stop_id := "stop1", stop_sequence := 2 } ]

/-- One staging record naming a stop id that is not in the store. -/
def rowsBadFixture : List StopTimeGtfs :=
  [ { trip_id := "trip1", arrival_time := 60, departure_time := 60,
      stop_id := "ghost", stop_sequence := 1 } ]

/-- Witness for **C3**: the resolvable fixture loads, and the fixture with
an unknown stop id fails with the unresolved identifier. -/
theorem read_stop_times_references_witness :
    (∃ g', gtfsFixture.read_stop_times rowsFixture = .ok g') ∧
    (∃ e s', gtfsFixture.read_stop_times rowsBadFixture = .error e ∧
      s' ∈ rowsBadFixture ∧
      ((gtfsFixture.trips s'.trip_id = none ∧ e.id = s'.trip_id) ∨
        (gtfsFixture.trips s'.trip_id ≠ none ∧
          gtfsFixture.stops s'.stop_id = none ∧ e.id = s'.stop_id))) :=
  ⟨(read_stop_times_references gtfsFixture rowsFixture).1 (by decide),
    (read_stop_times_references gtfsFixture rowsBadFixture).2 _
      (List.mem_cons_self _ _) (Or.inr (by decide))⟩

/-- Claim **C4.** After a successful `read_stop_times` pass, every trip's visit
list is the stably sorted image of the list in which its visits were
attached in file order: it is sorted by non-decreasing `stop_sequence`, and
for every sequence number the visits carrying it keep their original
relative order. -/
theorem read_stop_times_sorted_stable (g : Gtfs) (rows : List StopTimeGtfs)
    (g' : Gtfs) (h : g.read_stop_times rows = .ok g') :
    ∀ id t, g'.trips id = some t →
      List.Pairwise (fun x y => x.stop_sequence ≤ y.stop_sequence)
        t.stop_times ∧
      ∃ trips₀ t₀, resolveStopTimes g.trips g.stops rows = .ok trips₀ ∧
        trips₀ id = some t₀ ∧ t.stop_times = sortBySeq t₀.stop_times ∧
        ∀ k, t.stop_times.filter (fun st => st.stop_sequence == k) =
          t₀.stop_times.filter (fun st => st.stop_sequence == k) := by
  intro id t ht
  rw [Gtfs.read_stop_times] at h
  cases hres : resolveStopTimes g.trips g.stops rows with
  | error e => rw [hres] at h; cases h
  | ok trips₀ =>
    rw [hres] at h
    cases h
    have ht' : (trips₀ id).map
        (fun t => { t with stop_times := sortBySeq t.stop_times }) = some t := ht
    rcases Option.map_eq_some'.mp ht' with ⟨t₀, ht₀, hft⟩
    subst hft
    exact ⟨sortBySeq_sorted _,
      trips₀, t₀, rfl, ht₀, rfl, fun k => sortBySeq_stable _ k⟩

/-- The trip of `gtfsFixture` after resolving `rowsFixture`: visits sorted
by sequence, the two sequence-2 visits in file order. -/
def resolvedTripFixture : Trip :=
  { id := "trip1", service_id := "service1", route_id := "route1"
    stop_times :=
      [ { arrival_time := 60, stop := stopFixture, departure_time := 60,
          stop_sequence := 1 },
        { arrival_time := 120, stop := stopFixture, departure_time := 120,
          stop_sequence := 2 },
        { arrival_time := 180, stop := stopFixture, departure_time := 200,
          stop_sequence := 2 } ] }

/-- Witness for **C4** on the concrete fixture. -/
theorem read_stop_times_sorted_stable_witness :
    List.Pairwise (fun x y => x.stop_sequence ≤ y.stop_sequence)
      resolvedTripFixture.stop_times ∧
    ∃ trips₀ t₀,
      resolveStopTimes gtfsFixture.trips gtfsFixture.stops rowsFixture =
        .ok trips₀ ∧
      trips₀ "trip1" = some t₀ ∧
      resolvedTripFixture.stop_times = sortBySeq t₀.stop_times ∧
      ∀ k, resolvedTripFixture.stop_times.filter
          (fun st => st.stop_sequence == k) =
        t₀.stop_times.filter (fun st => st.stop_sequence == k) :=
  read_stop_times_sorted_stable gtfsFixture rowsFixture _ rfl "trip1"
    resolvedTripFixture rfl

/-! ### Decomposition of `trip_days` -/

/-- The `as u16` cast of a (non-negative) day offset. -/
def u16cast (o : Int) : Nat := o.toNat % 2 ^ 16

/-- The non-negative offsets of the type-1 (added) exceptions, in encounter
order. -/
def addedOffsets (start_date : Int) (l : List CalendarDate) : List Int :=
  l.filterMap fun d =>
    if 0 ≤ d.date - start_date ∧ d.exception_type = 1 then
      some (d.date - start_date)
    else none

/-- The non-negative offsets of the type-2 (removed) exceptions, in
encounter order. -/
def removedOffsets (start_date : Int) (l : List CalendarDate) : List Int :=
  l.filterMap fun d =>
    if 0 ≤ d.date - start_date ∧ d.exception_type = 2 then
      some (d.date - start_date)
    else none

/-- The weekly-pattern day offsets (uncast), in ascending order: every
offset from 0 to (end date − start date) whose date lies in the calendar's
range, whose weekday flag is set, and which is not removed. -/
def patternOffsetsTrue (c : Calendar) (start_date : Int)
    (removed : List Int) : List Int :=
  if 0 ≤ c.end_date - start_date then
    (List.range ((c.end_date - start_date).toNat + 1)).filterMap fun (k : Nat) =>
      if c.start_date ≤ start_date + (k : Int) ∧
          start_date + (k : Int) ≤ c.end_date ∧
          c.valid_weekday (start_date + (k : Int)) = true ∧
          (k : Int) ∉ removed
      then some ((k : Int)) else none
  else []

/-- The pattern part of a service's expansion (empty when the service has
no calendar). -/
def patternTrue (g : Gtfs) (service_id : String) (start_date : Int) :
    List Int :=
  match g.calendar service_id with
  | none => []
  | some c =>
    patternOffsetsTrue c start_date
      (removedOffsets start_date ((g.calendar_dates service_id).getD []))

/-- The service-day expansion with true (uncast) offsets: type-1 additions
in encounter order, then pattern days in ascending order. -/
def tripDaysInt (g : Gtfs) (service_id : String) (start_date : Int) :
    List Int :=
  addedOffsets start_date ((g.calendar_dates service_id).getD []) ++
    patternTrue g service_id start_date

/-- The exception loop computes the cast additions and the removal set. -/
lemma exceptionFold_foldl (start_date : Int) (l : List CalendarDate)
    (acc : List Nat × List Int) :
    l.foldl (exceptionFold start_date) acc =
      (acc.1 ++ (addedOffsets start_date l).map u16cast,
        acc.2 ++ removedOffsets start_date l) := by
  induction l generalizing acc with
  | nil => simp [addedOffsets, removedOffsets]
  | cons d l ih =>
    rw [List.foldl_cons, ih]
    unfold exceptionFold addedOffsets removedOffsets
    by_cases h0 : 0 ≤ d.date - start_date
    · have h0' : start_date ≤ d.date := by omega
      by_cases h1 : d.exception_type = 1
      · simp [h0, h0', h1, List.filterMap_cons, u16cast,
          addedOffsets, removedOffsets]
      · by_cases h2 : d.exception_type = 2
        · simp [h0, h0', h1, h2, List.filterMap_cons,
            addedOffsets, removedOffsets]
        · simp [h0, h0', h1, h2, List.filterMap_cons,
            addedOffsets, removedOffsets]
    · have h0' : ¬ start_date ≤ d.date := by omega
      simp [h0, h0', List.filterMap_cons, addedOffsets, removedOffsets]

/-- A `filterMap` whose function is a guarded `some` is a `map` after a
`filter`. -/
lemma filterMap_guard_map {α β : Type} (p : α → Prop) [DecidablePred p]
    (f : α → β) (l : List α) :
    (l.filterMap fun a => if p a then some (f a) else none) =
      (l.filter fun a => decide (p a)).map f := by
  induction l with
  | nil => rfl
  | cons a l ih =>
    by_cases h : p a
    · simp [List.filterMap_cons, List.filter_cons, h, ih]
    · simp [List.filterMap_cons, List.filter_cons, h, ih]

/-- Claim **C9-support**: `trip_days` is the true-offset expansion, every element
cast `as u16`. -/
lemma trip_days_eq_map_u16cast (g : Gtfs) (service_id : String)
    (start_date : Int) :
    g.trip_days service_id start_date =
      (tripDaysInt g service_id start_date).map u16cast := by
  unfold Gtfs.trip_days tripDaysInt patternTrue
  rw [exceptionFold_foldl]
  cases hc : g.calendar service_id with
  | none => simp
  | some c =>
    simp only [List.nil_append, List.map_append]
    congr 1
    unfold patternOffsetsTrue
    by_cases h0 : 0 ≤ c.end_date - start_date
    · rw [if_pos h0, if_pos h0]
      rw [filterMap_guard_map, filterMap_guard_map, List.map_map]
      rfl
    · rw [if_neg h0, if_neg h0]
      rfl

/-- The pattern part is scoped to the calendar's end date. -/
lemma patternOffsetsTrue_scoped (c : Calendar) (start_date : Int)
    (removed : List Int) :
    ∀ o ∈ patternOffsetsTrue c start_date removed,
      0 ≤ o ∧ o ≤ c.end_date - start_date := by
  intro o ho
  unfold patternOffsetsTrue at ho
  by_cases h0 : 0 ≤ c.end_date - start_date
  · rw [if_pos h0] at ho
    rcases List.mem_filterMap.mp ho with ⟨k, hk, hko⟩
    by_cases hcond : c.start_date ≤ start_date + (k : Int) ∧
        start_date + (k : Int) ≤ c.end_date ∧
        c.valid_weekday (start_date + (k : Int)) = true ∧ (k : Int) ∉ removed
    · rw [if_pos hcond] at hko
      cases hko
      have hle := hcond.2.1
      exact ⟨Int.natCast_nonneg k, by omega⟩
    · rw [if_neg hcond] at hko
      cases hko
  · rw [if_neg h0] at ho
    cases ho

/-- Every true offset in the expansion is non-negative. -/
lemma tripDaysInt_nonneg (g : Gtfs) (service_id : String) (start_date : Int) :
    ∀ o ∈ tripDaysInt g service_id start_date, 0 ≤ o := by
  intro o ho
  unfold tripDaysInt at ho
  rcases List.mem_append.mp ho with ho | ho
  · unfold addedOffsets at ho
    rcases List.mem_filterMap.mp ho with ⟨d, _, hd⟩
    by_cases h : 0 ≤ d.date - start_date ∧ d.exception_type = 1
    · rw [if_pos h] at hd
      cases hd
      exact h.1
    · rw [if_neg h] at hd
      cases hd
  · unfold patternTrue at ho
    cases hc : g.calendar service_id with
    | none => simp only [hc] at ho; cases ho
    | some c =>
      simp only [hc] at ho
      exact (patternOffsetsTrue_scoped c start_date _ o ho).1

/-- The pattern part lists strictly increasing offsets. -/
lemma patternOffsetsTrue_sorted (c : Calendar) (start_date : Int)
    (removed : List Int) :
    List.Pairwise (fun a b : Int => a < b)
      (patternOffsetsTrue c start_date removed) := by
  unfold patternOffsetsTrue
  by_cases h0 : 0 ≤ c.end_date - start_date
  · rw [if_pos h0, filterMap_guard_map]
    have hr : List.Pairwise (fun a b : Nat => a < b)
        (List.range ((c.end_date - start_date).toNat + 1)) :=
      List.pairwise_lt_range _
    exact (hr.filter _).map _ (fun a b h => by exact_mod_cast h)
  · rw [if_neg h0]
    exact List.Pairwise.nil

/-- Source `trip_days` is the cast additions, in encounter order, followed by the
cast pattern days. -/
lemma trip_days_split (g : Gtfs) (service_id : String) (start_date : Int) :
    g.trip_days service_id start_date =
      (addedOffsets start_date
        ((g.calendar_dates service_id).getD [])).map u16cast ++
        (patternTrue g service_id start_date).map u16cast := by
  rw [trip_days_eq_map_u16cast]
  unfold tripDaysInt
  rw [List.map_append]

/-- The additions are offsets of dates on or after the start date. -/
lemma addedOffsets_nonneg (start_date : Int) (l : List CalendarDate) :
    ∀ o ∈ addedOffsets start_date l, 0 ≤ o := by
  intro o ho
  unfold addedOffsets at ho
  rcases List.mem_filterMap.mp ho with ⟨d, _, hd⟩
  by_cases h : 0 ≤ d.date - start_date ∧ d.exception_type = 1
  · rw [if_pos h] at hd
    cases hd
    exact h.1
  · rw [if_neg h] at hd
    cases hd

/-- The pattern part of any service is strictly ascending. -/
lemma patternTrue_sorted (g : Gtfs) (service_id : String) (start_date : Int) :
    List.Pairwise (fun a b : Int => a < b)
      (patternTrue g service_id start_date) := by
  unfold patternTrue
  cases hc : g.calendar service_id with
  | none => exact List.Pairwise.nil
  | some c => exact patternOffsetsTrue_sorted c start_date _

/-- The pattern part is non-negative and scoped to the calendar's end
date. -/
lemma patternTrue_scoped (g : Gtfs) (service_id : String) (start_date : Int) :
    ∀ c, g.calendar service_id = some c →
      ∀ o ∈ patternTrue g service_id start_date,
        0 ≤ o ∧ o ≤ c.end_date - start_date := by
  intro c hc o ho
  unfold patternTrue at ho
  simp only [hc] at ho
  exact patternOffsetsTrue_scoped c start_date _ o ho

/-- Filtering out exceptions dated before the start date does not change
the additions. -/
lemma addedOffsets_filter_prestart (start_date : Int) (l : List CalendarDate) :
    addedOffsets start_date
        (l.filter fun d => decide (start_date ≤ d.date)) =
      addedOffsets start_date l := by
  induction l with
  | nil => rfl
  | cons d l ih =>
    unfold addedOffsets at ih ⊢
    rw [List.filter_cons]
    by_cases h : start_date ≤ d.date
    · rw [if_pos (decide_eq_true h), List.filterMap_cons, List.filterMap_cons, ih]
    · have h' : ¬ (0 ≤ d.date - start_date ∧ d.exception_type = 1) :=
        fun hh => h (by omega)
      have hd : ¬ (decide (start_date ≤ d.date) = true) := by simp [h]
      rw [if_neg hd, ih, List.filterMap_cons, if_neg h']

/-- Filtering out exceptions dated before the start date does not change
the removal set. -/
lemma removedOffsets_filter_prestart (start_date : Int)
    (l : List CalendarDate) :
    removedOffsets start_date
        (l.filter fun d => decide (start_date ≤ d.date)) =
      removedOffsets start_date l := by
  induction l with
  | nil => rfl
  | cons d l ih =>
    unfold removedOffsets at ih ⊢
    rw [List.filter_cons]
    by_cases h : start_date ≤ d.date
    · rw [if_pos (decide_eq_true h), List.filterMap_cons, List.filterMap_cons, ih]
    · have h' : ¬ (0 ≤ d.date - start_date ∧ d.exception_type = 2) :=
        fun hh => h (by omega)
      have hd : ¬ (decide (start_date ≤ d.date) = true) := by simp [h]
      rw [if_neg hd, ih, List.filterMap_cons, if_neg h']

/-- Claim **C9.** Every day offset placed in the `trip_days` result is the true
day difference reduced by the `as u16` cast: the result is the true-offset
expansion mapped through reduction modulo `2 ^ 16`, all true offsets are
non-negative, and an offset exceeding 65535 is returned reduced, not as
itself — with no error, `trip_days` being a total function into a plain
list. -/
theorem trip_days_u16_truncation (g : Gtfs) (service_id : String)
    (start_date : Int) :
    g.trip_days service_id start_date =
      (tripDaysInt g service_id start_date).map u16cast ∧
    (∀ o ∈ tripDaysInt g service_id start_date, 0 ≤ o) ∧
    (∀ o ∈ tripDaysInt g service_id start_date,
      (2 ^ 16 - 1 : Int) < o → u16cast o ≠ o.toNat) :=
  ⟨trip_days_eq_map_u16cast g service_id start_date,
    tripDaysInt_nonneg g service_id start_date,
    fun o _ h => by unfold u16cast; omega⟩

/-- A service defined by a single added exception 70000 days past the
start date. -/
def gC9 : Gtfs :=
  { calendar_dates := StrMap.empty.insert "s" [⟨"s", 70000, 1⟩] }

/-- Witness for **C9**: the true offset 70000 exceeds 65535 and its
returned form differs from it. -/
theorem trip_days_u16_truncation_witness :
    Gtfs.trip_days gC9 "s" 0 = (tripDaysInt gC9 "s" 0).map u16cast ∧
    u16cast 70000 ≠ (70000 : Int).toNat :=
  ⟨(trip_days_u16_truncation gC9 "s" 0).1,
    (trip_days_u16_truncation gC9 "s" 0).2.2 70000 (by decide) (by decide)⟩

/-- Claim **C5.** The `trip_days` result is exactly the type-1 additions dated on
or after the start date, cast and in encounter order, followed by the
weekly-pattern days, cast and in ascending offset order; the two parts are
concatenated without merging or deduplication, so an offset that is both a
type-1 addition and a pattern day occurs at least twice. -/
theorem trip_days_concat_no_dedup (g : Gtfs) (service_id : String)
    (start_date : Int) :
    g.trip_days service_id start_date =
      (addedOffsets start_date
        ((g.calendar_dates service_id).getD [])).map u16cast ++
        (patternTrue g service_id start_date).map u16cast ∧
    List.Pairwise (fun a b : Int => a < b)
      (patternTrue g service_id start_date) ∧
    ∀ o : Int,
      o ∈ addedOffsets start_date ((g.calendar_dates service_id).getD []) →
      o ∈ patternTrue g service_id start_date →
      2 ≤ (g.trip_days service_id start_date).count (u16cast o) := by
  refine ⟨trip_days_split g service_id start_date,
    patternTrue_sorted g service_id start_date, ?_⟩
  intro o hadd hpat
  rw [trip_days_split g service_id start_date, List.count_append]
  have h1 : 0 < ((addedOffsets start_date
      ((g.calendar_dates service_id).getD [])).map u16cast).count (u16cast o) :=
    List.count_pos_iff.mpr (List.mem_map_of_mem u16cast hadd)
  have h2 : 0 < ((patternTrue g service_id start_date).map u16cast).count
      (u16cast o) :=
    List.count_pos_iff.mpr (List.mem_map_of_mem u16cast hpat)
  omega

/-- A calendar running every weekday over offsets 0 and 1. -/
def calC5 : Calendar :=
  { id := "s", monday := true, tuesday := true, wednesday := true,
    thursday := true, friday := true, saturday := true, sunday := true,
    start_date := 0, end_date := 1 }

/-- A service whose day at offset 0 is both a type-1 addition and a pattern
day. -/
def gC5 : Gtfs :=
  { calendar_dates := StrMap.empty.insert "s" [⟨"s", 0, 1⟩]
    calendar := StrMap.empty.insert "s" calC5 }

/-- Witness for **C5**: the doubly-qualified offset 0 appears twice. -/
theorem trip_days_concat_no_dedup_witness :
    2 ≤ (Gtfs.trip_days gC5 "s" 0).count (u16cast 0) :=
  (trip_days_concat_no_dedup gC5 "s" 0).2.2 0 (by decide) (by decide)

/-- Claim **C6.** Exceptions dated strictly before the start date contribute
nothing: dropping them from every service's exception list leaves the
`trip_days` result unchanged (so a pre-start type-1 exception never appears
and a pre-start type-2 exception never removes a pattern day). -/
theorem trip_days_ignores_prestart (g : Gtfs) (service_id : String)
    (start_date : Int) :
    g.trip_days service_id start_date =
      Gtfs.trip_days
        { g with calendar_dates := (fun k =>
            (g.calendar_dates k).map
              (List.filter fun d => decide (start_date ≤ d.date))) }
        service_id start_date := by
  have hlist : ((g.calendar_dates service_id).map
      (List.filter fun d => decide (start_date ≤ d.date))).getD [] =
      ((g.calendar_dates service_id).getD []).filter
        (fun d => decide (start_date ≤ d.date)) := by
    cases g.calendar_dates service_id <;> rfl
  simp only [Gtfs.trip_days]
  rw [exceptionFold_foldl, exceptionFold_foldl, hlist,
    addedOffsets_filter_prestart, removedOffsets_filter_prestart]

/-- The calendar of the counterexample store: every weekday on, spanning
offsets 0 and 1 from day 0. -/
def calC2 : Calendar :=
  { id := "s", monday := true, tuesday := true, wednesday := true,
    thursday := true, friday := true, saturday := true, sunday := true,
    start_date := 0, end_date := 1 }

/-- A service with a type-1 exception at offset 3, past its calendar end
date at offset 1. -/
def gC2 : Gtfs :=
  { calendar_dates := StrMap.empty.insert "s" [⟨"s", 3, 1⟩]
    calendar := StrMap.empty.insert "s" calC2 }

/-- Counterexample to **C2** as stated: the result `[3, 0, 1]` is neither
sorted in non-decreasing order nor scoped to the calendar end date (the
addition 3 exceeds the end-date offset 1). -/
theorem trip_days_not_ascending :
    Gtfs.trip_days gC2 "s" 0 = [3, 0, 1] ∧
    ¬ List.Pairwise (fun a b : Nat => a ≤ b) (Gtfs.trip_days gC2 "s" 0) ∧
    gC2.calendar "s" = some calC2 ∧ 3 ∈ Gtfs.trip_days gC2 "s" 0 ∧
    calC2.end_date - 0 < ((3 : Nat) : Int) := by decide

/-- Claim **C2 (amended).** `trip_days` returns non-negative day offsets (reduced
modulo `2 ^ 16`): the weekly-pattern portion is ascending in true offset and
scoped to the calendar end date, while the type-1 exception additions
precede it in encounter order and are not bounded by the end date, so the
combined list need not be ascending. -/
theorem trip_days_amended (g : Gtfs) (service_id : String) (start_date : Int) :
    g.trip_days service_id start_date =
      (addedOffsets start_date
        ((g.calendar_dates service_id).getD [])).map u16cast ++
        (patternTrue g service_id start_date).map u16cast ∧
    (∀ o ∈ addedOffsets start_date ((g.calendar_dates service_id).getD []),
      0 ≤ o) ∧
    List.Pairwise (fun a b : Int => a < b)
      (patternTrue g service_id start_date) ∧
    ∀ c, g.calendar service_id = some c →
      ∀ o ∈ patternTrue g service_id start_date,
        0 ≤ o ∧ o ≤ c.end_date - start_date :=
  ⟨trip_days_split g service_id start_date,
    addedOffsets_nonneg start_date _,
    patternTrue_sorted g service_id start_date,
    patternTrue_scoped g service_id start_date⟩

/-- Witness for **C2 (amended)** on the counterexample store. -/
theorem trip_days_amended_witness :
    Gtfs.trip_days gC2 "s" 0 =
      (addedOffsets 0 ((gC2.calendar_dates "s").getD [])).map u16cast ++
        (patternTrue gC2 "s" 0).map u16cast ∧
    (0 ≤ (0 : Int) ∧ (0 : Int) ≤ calC2.end_date - 0) :=
  ⟨(trip_days_amended gC2 "s" 0).1,
    (trip_days_amended gC2 "s" 0).2.2.2 calC2 rfl 0 (by decide)⟩

/-- Counterexample to **C1** as stated: on the input `"0:0"`, which has
fewer than two `:` separators but numeric leading components, `parse_time`
does not evaluate to a value or a decode error — it hits an out-of-bounds
index on `v[2]` (a panic), so the parser is not total. -/
theorem parse_time_panics_on_short_input :
    parse_time "0:0" = RustOutcome.indexOutOfBounds ∧
    parse_time "0" = RustOutcome.indexOutOfBounds := by decide

/-- Claim **C1 (amended).** On every input containing at least two `:` separators
(the split yields at least three components), `parse_time` never panics: it
evaluates to `hours*3600 + minutes*60 + seconds` reduced modulo `2 ^ 32`
when the first three components parse as `u32` numerals, and to a decode
error when any of the first three components is non-numeric or out of `u32`
range; on inputs with fewer than two `:` separators whose leading components
are numeric it instead aborts on an out-of-bounds index. -/
theorem parse_time_amended (s : String) (a b c : String) (rest : List String)
    (hv : rustSplit s = a :: b :: c :: rest) :
    parse_time s ≠ RustOutcome.indexOutOfBounds ∧
    (∀ h0 m0 s0 : Nat,
      parseU32 a = some h0 → parseU32 b = some m0 → parseU32 c = some s0 →
      parse_time s = .ok ((h0 * 3600 + m0 * 60 + s0) % 2 ^ 32)) ∧
    ((parseU32 a = none ∨ parseU32 b = none ∨ parseU32 c = none) →
      parse_time s = RustOutcome.decodeError) := by
  have hpt : parse_time s =
      (match parseU32 a with
        | none => RustOutcome.decodeError
        | some h =>
          match parseU32 b with
          | none => RustOutcome.decodeError
          | some m =>
            match parseU32 c with
            | none => RustOutcome.decodeError
            | some sec =>
              RustOutcome.ok ((h * 3600 + m * 60 + sec) % 2 ^ 32)) := by
    simp only [parse_time]
    rw [hv]
    exact rfl
  rw [hpt]
  cases hpa : parseU32 a with
  | none =>
    refine ⟨by simp, ?_, fun _ => rfl⟩
    intro h0 m0 s0 ha hb hc
    cases ha
  | some h0 =>
    cases hpb : parseU32 b with
    | none =>
      refine ⟨by simp, ?_, fun _ => rfl⟩
      intro h0' m0 s0 ha hb hc
      cases hb
    | some m0 =>
      cases hpc : parseU32 c with
      | none =>
        refine ⟨by simp, ?_, fun _ => rfl⟩
        intro h0' m0' s0 ha hb hc
        cases hc
      | some s0 =>
        refine ⟨by simp, ?_, fun hn => ?_⟩
        · intro h0' m0' s0' ha hb hc
          cases ha
          cases hb
          cases hc
          rfl
        · rcases hn with hn | hn | hn <;> cases hn

/-- Witness for **C1 (amended)** at `"1:2:3"`. -/
theorem parse_time_amended_witness :
    rustSplit "1:2:3" = ["1", "2", "3"] ∧
    parse_time "1:2:3" ≠ RustOutcome.indexOutOfBounds :=
  ⟨by decide, (parse_time_amended "1:2:3" "1" "2" "3" [] (by decide)).1⟩

/-- Counterexample to **C7** as stated: the route-type code 65536 does not
fit in the `u16` the decoder reads, so it is a decode error rather than the
fallback `Other 65536`. -/
theorem route_type_code_65536_is_error :
    RouteType.deserialize 65536 = Except.error ⟨⟩ ∧
    RouteType.deserialize 65536 ≠ Except.ok (RouteType.Other 65536) :=
  ⟨by simp [RouteType.deserialize], by simp [RouteType.deserialize]⟩

/-- Claim **C7 (amended).** For every code that fits in a `u16` (0 ≤ code <
65536), decoding yields the named variant for 0–7 and `Other code` — never
a decode error — while every code ≥ 65536 fails `u16` deserialization and
is a decode error. -/
theorem route_type_deserialize_amended :
    RouteType.deserialize 0 = .ok .Tramway ∧
    RouteType.deserialize 1 = .ok .Subway ∧
    RouteType.deserialize 2 = .ok .Rail ∧
    RouteType.deserialize 3 = .ok .Bus ∧
    RouteType.deserialize 4 = .ok .Ferry ∧
    RouteType.deserialize 5 = .ok .CableCar ∧
    RouteType.deserialize 6 = .ok .Gondola ∧
    RouteType.deserialize 7 = .ok .Funicular ∧
    (∀ i : Nat, 8 ≤ i → i < 2 ^ 16 →
      RouteType.deserialize i = .ok (.Other i)) ∧
    (∀ i : Nat, 2 ^ 16 ≤ i → RouteType.deserialize i = .error ⟨⟩) := by
  refine ⟨rfl, rfl, rfl, rfl, rfl, rfl, rfl, rfl, fun i h8 hlt => ?_,
    fun i hge => ?_⟩
  · rcases i with _ | _ | _ | _ | _ | _ | _ | _ | j
    · omega
    · omega
    · omega
    · omega
    · omega
    · omega
    · omega
    · omega
    · unfold RouteType.deserialize
      rw [if_pos hlt]
      exact rfl
  · unfold RouteType.deserialize
    rw [if_neg (by omega)]

/-- Witness for **C7 (amended)** at the out-of-range code 42 and the
overflowing code 70000. -/
theorem route_type_deserialize_amended_witness :
    RouteType.deserialize 42 = .ok (.Other 42) ∧
    RouteType.deserialize 70000 = .error ⟨⟩ :=
  ⟨route_type_deserialize_amended.2.2.2.2.2.2.2.2.1 42 (by decide) (by decide),
    route_type_deserialize_amended.2.2.2.2.2.2.2.2.2 70000 (by decide)⟩

/-- Claim **C10.** Decoding a stop's location-type field is total and never a
decode error: `"1"` yields the stop-area variant, `"2"` the
station-entrance variant, and every other string the default stop-point —
unlike the date, time, and float decoders, which reject malformed text such
as `"x"`. -/
theorem location_type_total (s : String) :
    (∃ t, deserialize_location_type s = .ok t) ∧
    deserialize_location_type "1" = .ok .StopArea ∧
    deserialize_location_type "2" = .ok .StationEntrance ∧
    (s ≠ "1" → s ≠ "2" → deserialize_location_type s = .ok .StopPoint) ∧
    deserialize_date "x" = .error ⟨⟩ ∧
    deserialize_time "x" = RustOutcome.decodeError ∧
    de_with_trimed_float "x" = .error ⟨⟩ := by
  refine ⟨⟨_, rfl⟩, rfl, rfl, fun h1 h2 => ?_, rfl, rfl, rfl⟩
  unfold deserialize_location_type
  split
  · exact absurd rfl h1
  · exact absurd rfl h2
  · rfl

/-- Witness for **C10** at the raw text `"0"`, which silently decodes to
the default stop-point. -/
theorem location_type_total_witness :
    deserialize_location_type "0" = .ok .StopPoint :=
  (location_type_total "0").2.2.2.1 (by decide) (by decide)

/-- Claim **C8.** Loading a bundle from a directory: the absence of any of the
seven mandatory files is a fatal error and no store is returned, while the
absence of the optional shapes and fare-attributes files yields empty
shapes and fare-attribute collections and a successful load (given that
stop-visit resolution goes through). -/
theorem gtfs_new_optional_mandatory (dir : GtfsDir) :
    ((dir.trips_file = none ∨ dir.calendar_file = none ∨
      dir.stops_file = none ∨ dir.calendar_dates_file = none ∨
      dir.routes_file = none ∨ dir.stop_times_file = none ∨
      dir.agency_file = none) → Gtfs.new dir = .error .io) ∧
    (∀ tr cal st cd r sx a g',
      dir = { trips_file := some tr, calendar_file := some cal,
              stops_file := some st, calendar_dates_file := some cd,
              routes_file := some r, stop_times_file := some sx,
              agency_file := some a } →
      (stagedStore tr cal cd st r).read_stop_times sx = .ok g' →
      ∃ g, Gtfs.new dir = .ok g ∧ (∀ k, g.shapes k = none) ∧
        ∀ k, g.fare_attributes k = none) := by
  constructor
  · intro h
    unfold Gtfs.new
    cases htr : dir.trips_file with
    | none => rfl
    | some tr =>
      cases hcal : dir.calendar_file with
      | none => rfl
      | some cal =>
        cases hst : dir.stops_file with
        | none => rfl
        | some st =>
          cases hcd : dir.calendar_dates_file with
          | none => rfl
          | some cd =>
            cases hr : dir.routes_file with
            | none => rfl
            | some r =>
              cases hsx : dir.stop_times_file with
              | none => rfl
              | some sx =>
                cases ha : dir.agency_file with
                | none => rfl
                | some a =>
                  exfalso
                  simp [htr, hcal, hst, hcd, hr, hsx, ha] at h
  · intro tr cal st cd r sx a g' hdir hok
    subst hdir
    have hnew : Gtfs.new
        { trips_file := some tr, calendar_file := some cal,
          stops_file := some st, calendar_dates_file := some cd,
          routes_file := some r, stop_times_file := some sx,
          agency_file := some a } =
        (match (stagedStore tr cal cd st r).read_stop_times sx with
          | .error e => Except.error (LoadError.ref e)
          | .ok g => Except.ok (g.read_agencies a)) := rfl
    rw [hok] at hnew
    refine ⟨g'.read_agencies a, hnew, ?_, ?_⟩
    · rw [Gtfs.read_stop_times] at hok
      cases hres : resolveStopTimes (stagedStore tr cal cd st r).trips
          (stagedStore tr cal cd st r).stops sx with
      | error e => rw [hres] at hok; cases hok
      | ok trips' =>
        rw [hres] at hok
        cases hok
        intro k
        rfl
    · rw [Gtfs.read_stop_times] at hok
      cases hres : resolveStopTimes (stagedStore tr cal cd st r).trips
          (stagedStore tr cal cd st r).stops sx with
      | error e => rw [hres] at hok; cases hok
      | ok trips' =>
        rw [hres] at hok
        cases hok
        intro k
        rfl

/-- A directory fixture holding all seven mandatory files with no rows and
neither optional file. -/
def dirEmptyFixture : GtfsDir :=
  { trips_file := some [], calendar_file := some [], stops_file := some [],
    calendar_dates_file := some [], routes_file := some [],
    stop_times_file := some [], agency_file := some [] }

/-- Witness for **C8**: a directory missing `trips.txt` fails with an I/O
error, and the fixture without the optional files loads with empty shapes
and fare-attribute collections. -/
theorem gtfs_new_optional_mandatory_witness :
    Gtfs.new ({} : GtfsDir) = .error .io ∧
    ∃ g, Gtfs.new dirEmptyFixture = .ok g ∧ (∀ k, g.shapes k = none) ∧
      ∀ k, g.fare_attributes k = none :=
  ⟨(gtfs_new_optional_mandatory {}).1 (Or.inl rfl),
    (gtfs_new_optional_mandatory dirEmptyFixture).2 [] [] [] [] [] [] [] _
      rfl rfl⟩

end GtfsStructure
